import Mathlib

/-!
# Bootstrap of the playlist importer frontend (`frontend/src/main.js`)

The module body of `main.js` is embedded as a state-passing program over a host
runtime.  The host runtime carries the page document and the ordered trace of the
calls the module makes into the UI framework and its routing add-on.

Source statements and their embedding:

* lines 10-13  `const routes = [...]`                      ↦ `routes`
* lines 15-18  `const router = createRouter({...})`        ↦ first two binds of `main`
* line  20     `const app = createApp(App)`                ↦ third bind of `main`
* line  21     `app.use(router)`                           ↦ fourth bind of `main`
* line  22     `app.mount('#app')`                         ↦ last call of `main`
-/

namespace PlexImporter

/-! ## Data model -/

/-- Single-file components imported by `main.js` (lines 3, 7, 8).  Their internals are
out of scope; only their identity matters. -/
inductive Component where
  | App
  | Home
  | Settings
  deriving DecidableEq, Repr

/-- One entry of the route table: `{ path, component }`. -/
structure RouteRecord where
  path : String
  component : Component
  deriving DecidableEq, Repr

/-- History strategies offered by the routing add-on; each takes an optional base. -/
inductive History where
  | web (base : Option String)
  | hash (base : Option String)
  | memory (base : Option String)
  deriving DecidableEq, Repr

/-- The object literal handed to `createRouter`: `{ history, routes }`. -/
structure RouterOptions where
  history : History
  routes : List RouteRecord
  deriving DecidableEq, Repr

/-- A router instance; it keeps the options it was created from. -/
structure Router where
  options : RouterOptions
  deriving DecidableEq, Repr

/-- An application instance: its root component, the plugins attached with `use`, and
the selector of the host element it is mounted on (`none` while unmounted). -/
structure AppInstance where
  root : Component
  installed : List Router
  container : Option String
  deriving DecidableEq, Repr

/-- Calls made by the module into the framework, in the order they are issued. -/
inductive Effect where
  | createWebHistory (base : Option String)
  | createRouter (options : RouterOptions)
  | createApp (root : Component)
  | use (plugin : Router)
  | mount (selector : String)
  deriving DecidableEq, Repr

/-- The page document, reduced to the selectors that address an element in it. -/
structure Document where
  addressable : List String
  deriving DecidableEq, Repr

/-- Faults the framework can raise during startup. -/
inductive Fault where
  | mountTargetMissing (selector : String)
  deriving DecidableEq, Repr

/-- Host runtime: the document and the trace of calls issued so far (oldest first). -/
structure Host where
  document : Document
  trace : List Effect
  deriving DecidableEq, Repr

/-- Startup computations: they read and extend the host runtime and may raise a fault;
the host runtime survives a fault. -/
abbrev Boot (α : Type) : Type := Host → Except Fault α × Host

/-- Sequencing of startup computations: a fault stops the sequence. -/
def Boot.andThen {α β : Type} (m : Boot α) (f : α → Boot β) : Boot β := fun h =>
  match m h with
  | (Except.ok a, h1) => f a h1
  | (Except.error e, h1) => (Except.error e, h1)

/-- Record a call in the trace. -/
def record (e : Effect) (h : Host) : Host :=
  Host.mk h.document (h.trace ++ [e])

/-! ## Framework interface used by `main.js` -/

/-- Call `createWebHistory(base)`: selects the browser-native history strategy. -/
def createWebHistory (base : Option String) : Boot History := fun h =>
  (Except.ok (History.web base), record (Effect.createWebHistory base) h)

/-- Call `createRouter(options)`: builds a router that holds `options`. -/
def createRouter (options : RouterOptions) : Boot Router := fun h =>
  (Except.ok (Router.mk options), record (Effect.createRouter options) h)

/-- Call `createApp(root)`: a fresh, unmounted application with no plugin attached. -/
def createApp (root : Component) : Boot AppInstance := fun h =>
  (Except.ok (AppInstance.mk root [] none), record (Effect.createApp root) h)

/-- Call `app.use(plugin)`: attaches the router to the application instance. -/
def AppInstance.use (app : AppInstance) (plugin : Router) : Boot AppInstance := fun h =>
  (Except.ok (AppInstance.mk app.root (app.installed ++ [plugin]) app.container),
    record (Effect.use plugin) h)

/-- Modelled from the spec: the framework's `mount` (code of the UI framework, not part of
`main.js`).  "If the named host element does not exist in the page, the mount step
fails"; otherwise the application becomes attached to that element. -/
def AppInstance.mount (app : AppInstance) (selector : String) : Boot AppInstance := fun h =>
  if selector ∈ h.document.addressable then
    (Except.ok (AppInstance.mk app.root app.installed (some selector)),
      record (Effect.mount selector) h)
  else
    (Except.error (Fault.mountTargetMissing selector), record (Effect.mount selector) h)

/-! ## The module `main.js` -/

/-- Lines 10-13: the route table literal. -/
def routes : List RouteRecord :=
  [ RouteRecord.mk "/" Component.Home,
    RouteRecord.mk "/settings" Component.Settings ]

/-- Lines 15-22: the module body.  The argument `createWebHistory()` is evaluated
before the call to `createRouter` that receives it. -/
def main : Boot AppInstance :=
  Boot.andThen (createWebHistory none) fun history =>
  Boot.andThen (createRouter (RouterOptions.mk history routes)) fun router =>
  Boot.andThen (createApp Component.App) fun app =>
  Boot.andThen (app.use router) fun app =>
  app.mount "#app"

/-- One page load: run the module body against a document, starting from an empty trace. -/
def bootstrap (document : Document) : Except Fault AppInstance × Host :=
  main (Host.mk document [])

/-- The trace of calls issued by one page load. -/
def bootTrace (document : Document) : List Effect :=
  (bootstrap document).2.trace

/-- The router configurations passed to `createRouter` in a trace. -/
def routerConfigs (t : List Effect) : List RouterOptions :=
  t.filterMap fun e =>
    match e with
    | Effect.createRouter o => some o
    | _ => none

/-- The selectors passed to `mount` in a trace. -/
def mountTargets (t : List Effect) : List String :=
  t.filterMap fun e =>
    match e with
    | Effect.mount s => some s
    | _ => none

/-- The router created by `main.js` (lines 15-18). -/
def router : Router :=
  Router.mk (RouterOptions.mk (History.web none) routes)

/-- The application instance once the module body has completed. -/
def mountedApp : AppInstance :=
  AppInstance.mk Component.App [router] (some "#app")

/-! ## Route resolution -/

/-- Modelled from the spec: the router's resolution of a location (code of the routing
add-on, not part of `main.js`).  The "router matches by path, not by position", and
among several entries with the same path "first match wins". -/
def resolve (table : List RouteRecord) (location : String) : Option Component :=
  (table.find? fun r => r.path == location).map fun r => r.component

/-- The entries of a table that match a location. -/
def matching (table : List RouteRecord) (location : String) : List RouteRecord :=
  table.filter fun r => r.path == location

/-- Resolution by a router instance: against the table it was created from. -/
def Router.resolve (r : Router) (location : String) : Option Component :=
  PlexImporter.resolve r.options.routes location

/-- A path is absolute when its first character is `/`. -/
def isAbsolute (path : String) : Bool :=
  path.data.head? == some '/'

/-- A path has a dynamic segment (parameter or wildcard, as a catch-all entry needs) when
it contains `:` or `*`. -/
def isDynamic (path : String) : Bool :=
  path.data.any fun c => c == ':' || c == '*'

/-! ## The trace of one page load -/

/-- The calls issued by one page load, whatever the document. -/
theorem bootTrace_eq (d : Document) :
    bootTrace d =
      [ Effect.createWebHistory none,
        Effect.createRouter (RouterOptions.mk (History.web none) routes),
        Effect.createApp Component.App,
        Effect.use router,
        Effect.mount "#app" ] := by
  unfold bootTrace bootstrap main
  by_cases h : "#app" ∈ d.addressable <;>
    simp [Boot.andThen, createWebHistory, createRouter, createApp, AppInstance.use,
      AppInstance.mount, record, router, h]

/-- The result of one page load. -/
theorem bootstrap_result (d : Document) :
    (bootstrap d).1 =
      if "#app" ∈ d.addressable then Except.ok mountedApp
      else Except.error (Fault.mountTargetMissing "#app") := by
  unfold bootstrap main
  by_cases h : "#app" ∈ d.addressable <;>
    simp [Boot.andThen, createWebHistory, createRouter, createApp, AppInstance.use,
      AppInstance.mount, record, router, mountedApp, h]

/-! ## Resolution against tables with pairwise distinct paths -/

/-- Resolution inspects the entries in table order. -/
theorem resolve_cons (r : RouteRecord) (t : List RouteRecord) (p : String) :
    resolve (r :: t) p = if r.path = p then some r.component else resolve t p := by
  by_cases hr : r.path = p
  · simp [resolve, List.find?_cons, hr]
  · have hb : (r.path == p) = false := by simpa using hr
    simp [resolve, List.find?_cons, hr, hb]

/-- A resolved view comes from an entry of the table with the resolved path. -/
theorem mem_of_resolve_eq_some {t : List RouteRecord} {p : String} {v : Component}
    (h : resolve t p = some v) : RouteRecord.mk p v ∈ t := by
  induction t with
  | nil => simp [resolve] at h
  | cons r t ih =>
    by_cases hr : r.path = p
    · have hv : r.component = v := by simpa [resolve_cons, hr] using h
      have : r = RouteRecord.mk p v := by cases r; simp_all
      simp [this]
    · have : resolve t p = some v := by simpa [resolve_cons, hr] using h
      exact List.mem_cons_of_mem _ (ih this)

/-- In a table with pairwise distinct paths every entry is the one its path resolves to. -/
theorem resolve_eq_some_of_mem {t : List RouteRecord} {p : String} {v : Component}
    (nd : (t.map RouteRecord.path).Nodup) (h : RouteRecord.mk p v ∈ t) :
    resolve t p = some v := by
  induction t with
  | nil => simp at h
  | cons r t ih =>
    rw [List.map_cons, List.nodup_cons] at nd
    rcases List.mem_cons.1 h with h | h
    · subst h; simp [resolve_cons]
    · have hr : r.path ≠ p := by
        intro e
        exact nd.1 (e ▸ List.mem_map_of_mem RouteRecord.path h)
      have := ih nd.2 h
      simpa [resolve_cons, hr] using this

/-- Resolution does not depend on the order of a table with pairwise distinct paths. -/
theorem resolve_perm {t u : List RouteRecord} (hp : t.Perm u)
    (nd : (u.map RouteRecord.path).Nodup) (p : String) : resolve t p = resolve u p := by
  have ndt : (t.map RouteRecord.path).Nodup := ((hp.map RouteRecord.path).nodup_iff).2 nd
  apply Option.ext
  intro v
  constructor
  · intro h
    exact resolve_eq_some_of_mem nd (hp.mem_iff.1 (mem_of_resolve_eq_some h))
  · intro h
    exact resolve_eq_some_of_mem ndt (hp.mem_iff.2 (mem_of_resolve_eq_some h))

/-- The paths of the route table are pairwise distinct. -/
theorem routes_paths_nodup : (routes.map RouteRecord.path).Nodup := by
  decide

/-! ## Route table -/

/-- C1: the route table is exactly the ordered two-entry sequence `("/", Home)`,
`("/settings", Settings)`, and every page load creates exactly one router, from exactly
that table (same entries, same order). -/
theorem route_table_exact (d : Document) :
    routes =
        [RouteRecord.mk "/" Component.Home, RouteRecord.mk "/settings" Component.Settings] ∧
      routes.length = 2 ∧
      (routerConfigs (bootTrace d)).map RouterOptions.routes = [routes] ∧
      router.options.routes =
        [RouteRecord.mk "/" Component.Home, RouteRecord.mk "/settings" Component.Settings] := by
  rw [bootTrace_eq]
  exact ⟨rfl, rfl, rfl, rfl⟩

/-- C2: every entry `(p, v)` of the route table is the one and only entry matching `p`,
and resolving `p` yields `v` and no other view; in particular `/` resolves to Home and
not Settings, and `/settings` resolves to Settings and not Home. -/
theorem registered_path_resolves (r : RouteRecord) (h : r ∈ routes) :
    router.resolve r.path = some r.component ∧
      (∀ v, router.resolve r.path = some v → v = r.component) ∧
      matching routes r.path = [r] ∧
      router.resolve "/" = some Component.Home ∧
      router.resolve "/" ≠ some Component.Settings ∧
      router.resolve "/settings" = some Component.Settings ∧
      router.resolve "/settings" ≠ some Component.Home := by
  have hr : r = RouteRecord.mk "/" Component.Home ∨
      r = RouteRecord.mk "/settings" Component.Settings := by
    simpa [routes] using h
  rcases hr with rfl | rfl
  · refine ⟨by decide, ?_, by decide, by decide, by decide, by decide, by decide⟩
    intro v hv
    have e : router.resolve "/" = some Component.Home := by decide
    change router.resolve "/" = some v at hv
    rw [e] at hv
    exact (Option.some.inj hv).symm
  · refine ⟨by decide, ?_, by decide, by decide, by decide, by decide, by decide⟩
    intro v hv
    have e : router.resolve "/settings" = some Component.Settings := by decide
    change router.resolve "/settings" = some v at hv
    rw [e] at hv
    exact (Option.some.inj hv).symm

/-- Witness for C2 at the entry `("/settings", Settings)`. -/
theorem registered_path_resolves_witness :
    RouteRecord.mk "/settings" Component.Settings ∈ routes ∧
      router.resolve "/settings" = some Component.Settings ∧
      matching routes "/settings" = [RouteRecord.mk "/settings" Component.Settings] :=
  have h : RouteRecord.mk "/settings" Component.Settings ∈ routes := by decide
  ⟨h, (registered_path_resolves _ h).1, (registered_path_resolves _ h).2.2.1⟩

/-- C3: a path that is not registered in the route table resolves (resolution is total)
to no view: no entry matches it, and no entry of the table is a catch-all (no path has
a parameter or wildcard segment). -/
theorem unregistered_path_unmatched (p : String)
    (h : p ∉ routes.map RouteRecord.path) :
    router.resolve p = none ∧
      matching routes p = [] ∧
      (∀ r ∈ routes, r.path ≠ p) ∧
      (∀ r ∈ routes, isDynamic r.path = false) := by
  have h1 : ¬ ("/" = p) := fun e => h (by simp [routes, ← e])
  have h2 : ¬ ("/settings" = p) := fun e => h (by simp [routes, ← e])
  refine ⟨?_, ?_, ?_, by decide⟩
  · simp [Router.resolve, router, routes, resolve_cons, h1, h2, resolve]
  · simp [matching, routes, List.filter_cons, h1, h2]
  · intro r hr e
    exact h (e ▸ List.mem_map_of_mem RouteRecord.path hr)

/-- Witness for C3 at the path `/unknown`. -/
theorem unregistered_path_unmatched_witness :
    "/unknown" ∉ routes.map RouteRecord.path ∧ router.resolve "/unknown" = none :=
  have h : "/unknown" ∉ routes.map RouteRecord.path := by decide
  ⟨h, (unregistered_path_unmatched "/unknown" h).1⟩

/-- C4: the paths of the route table are pairwise distinct. -/
theorem route_paths_unique :
    (routes.map RouteRecord.path).Nodup ∧
      routes.Pairwise (fun a b => a.path ≠ b.path) := by
  refine ⟨routes_paths_nodup, ?_⟩
  exact List.pairwise_map.1 routes_paths_nodup

/-- C5: for every permutation of the route table and every path, first-match-wins
resolution against the permuted table gives the same result as against the table in
its original order. -/
theorem resolve_order_irrelevant (t : List RouteRecord) (h : t.Perm routes) (p : String) :
    resolve t p = resolve routes p :=
  resolve_perm h routes_paths_nodup p

/-- Witness for C5 at the reversed table and the path `/settings`. -/
theorem resolve_order_irrelevant_witness :
    (routes.reverse).Perm routes ∧
      resolve routes.reverse "/settings" = resolve routes "/settings" :=
  ⟨List.reverse_perm routes,
    resolve_order_irrelevant routes.reverse (List.reverse_perm routes) "/settings"⟩

/-! ## Bootstrap sequence -/

/-- C6: in the trace of one page load the router is created before it is attached with
`use`, which happens before `mount`; no mount occurs before the router is attached, and
the application that gets mounted has the router attached. -/
theorem router_attached_before_mount (d : Document) :
    (∃ i j k : Nat, i < j ∧ j < k ∧
        (bootTrace d)[i]? = some (Effect.createRouter router.options) ∧
        (bootTrace d)[j]? = some (Effect.use router) ∧
        (bootTrace d)[k]? = some (Effect.mount "#app") ∧
        ∀ m s, (bootTrace d)[m]? = some (Effect.mount s) → j < m) ∧
      (∀ a, (bootstrap d).1 = Except.ok a → a.installed = [router]) := by
  constructor
  · rw [bootTrace_eq]
    refine ⟨1, 3, 4, by decide, by decide, rfl, rfl, rfl, ?_⟩
    intro m s hm
    match m, hm with
    | 0, hm => simp at hm
    | 1, hm => simp at hm
    | 2, hm => simp at hm
    | 3, hm => simp at hm
    | m + 4, _ => omega
  · intro a ha
    rw [bootstrap_result] at ha
    by_cases h : "#app" ∈ d.addressable
    · rw [if_pos h] at ha
      cases ha
      rfl
    · rw [if_neg h] at ha
      cases ha

/-- C7: one page load issues exactly one mount, on `#app`, as its last step, and the
sequence has exactly one terminal state: some page load completes, and every page load
that completes ends in the same state, mounted on `#app`. -/
theorem mount_exactly_once (d : Document) :
    mountTargets (bootTrace d) = ["#app"] ∧
      (bootTrace d).getLast? = some (Effect.mount "#app") ∧
      (bootTrace d).length = 5 ∧
      (∀ a, (bootstrap d).1 = Except.ok a → a = mountedApp) ∧
      (∃ d0, (bootstrap d0).1 = Except.ok mountedApp) ∧
      mountedApp.container = some "#app" := by
  refine ⟨?_, ?_, ?_, ?_, ⟨Document.mk ["#app"], ?_⟩, rfl⟩
  · rw [bootTrace_eq]; rfl
  · rw [bootTrace_eq]; rfl
  · rw [bootTrace_eq]; rfl
  · intro a ha
    rw [bootstrap_result] at ha
    by_cases h : "#app" ∈ d.addressable
    · rw [if_pos h] at ha
      cases ha
      rfl
    · rw [if_neg h] at ha
      cases ha
  · rw [bootstrap_result]
    simp [Document.addressable]

/-- C8: the router is created with the browser-native history strategy: the history
field of its configuration is the result of the single `createWebHistory` call, made
with no base argument, and it is not a hash-based history. -/
theorem history_is_web (d : Document) :
    (routerConfigs (bootTrace d)).map RouterOptions.history = [History.web none] ∧
      Effect.createWebHistory none ∈ bootTrace d ∧
      (∀ b, Effect.createWebHistory b ∈ bootTrace d → b = none) ∧
      (createWebHistory none (Host.mk d [])).1 = Except.ok router.options.history ∧
      (∀ b, router.options.history ≠ History.hash b) := by
  rw [bootTrace_eq]
  refine ⟨rfl, by simp, ?_, rfl, ?_⟩
  · intro b hb
    simpa using hb
  · intro b hb
    cases hb

/-- C9: the page load faults if and only if the document has no element addressable by
`#app`; the fault is the missing mount target, raised at the mount step (the last of the
five calls), and with the element present the page load completes mounted. -/
theorem mount_fails_iff_host_missing (d : Document) :
    ((∃ e, (bootstrap d).1 = Except.error e) ↔ "#app" ∉ d.addressable) ∧
      ((bootstrap d).1 = Except.error (Fault.mountTargetMissing "#app") ↔
        "#app" ∉ d.addressable) ∧
      ((bootstrap d).1 = Except.ok mountedApp ↔ "#app" ∈ d.addressable) ∧
      (bootTrace d).getLast? = some (Effect.mount "#app") ∧
      (bootTrace d).length = 5 := by
  rw [bootstrap_result, bootTrace_eq]
  by_cases h : "#app" ∈ d.addressable
  · simp [h]
  · simp [h]

/-- C10: every path of the route table is non-empty and begins with `/`. -/
theorem route_paths_absolute (r : RouteRecord) (h : r ∈ routes) :
    r.path ≠ "" ∧ isAbsolute r.path = true ∧ r.path.data.head? = some '/' := by
  have hr : r = RouteRecord.mk "/" Component.Home ∨
      r = RouteRecord.mk "/settings" Component.Settings := by
    simpa [routes] using h
  rcases hr with rfl | rfl
  · exact ⟨by decide, by decide, by decide⟩
  · exact ⟨by decide, by decide, by decide⟩

/-- Witness for C10 at the entry `("/settings", Settings)`. -/
theorem route_paths_absolute_witness :
    RouteRecord.mk "/settings" Component.Settings ∈ routes ∧
      isAbsolute "/settings" = true :=
  have h : RouteRecord.mk "/settings" Component.Settings ∈ routes := by decide
  ⟨h, (route_paths_absolute _ h).2.1⟩

end PlexImporter
